import Mathlib

/-!
Shallow embedding of the musicman catalog manager (library.py, playlists.py,
io.py, exports.py, cli.py) and proofs about its specification claims.

Python strings are modelled as Lean `String`; Python `None`-or-string values as
`Option String`; fallible Python code (KeyError, TypeError, AttributeError,
sys.exit) as `Except Unit`.  Python dicts (which preserve insertion order) are
modelled as association lists with unique keys.
-/

namespace Musicman

/-! ### Python string primitives -/

/-- Python `str.lower()` (ASCII case folding, which covers every string the
repository manipulates). -/
def pyLower (s : String) : String := ⟨s.data.map Char.toLower⟩

/-- Python `str.strip()`: drop leading and trailing whitespace. -/
def pyStrip (s : String) : String :=
  ⟨((s.data.dropWhile Char.isWhitespace).reverse.dropWhile Char.isWhitespace).reverse⟩

/-- Python substring test `needle in hay` on lists of characters. -/
def hasSub (hay needle : List Char) : Bool :=
  if needle.isPrefixOf hay then true
  else
    match hay with
    | [] => false
    | _ :: t => hasSub t needle

/-- Python substring test `needle in hay` for strings. -/
def strIn (needle hay : String) : Bool := hasSub hay.data needle.data

/-- Python truthiness of a `None`-or-string value. -/
def truthy : Option String → Bool
  | none => false
  | some s => !(s = "")

/-! ### Dictionaries (Python dicts as ordered association lists) -/

/-- Python dict lookup `m[k]` (as an `Option`). -/
def dictGet {α : Type} (m : List (String × α)) (k : String) : Option α :=
  match m with
  | [] => none
  | (k', v) :: t => if k' = k then some v else dictGet t k

/-- Python dict assignment `m[k] = v`: replaces the value in place when the key
is present (keeping its position), otherwise appends the new pair. -/
def dictSet {α : Type} (m : List (String × α)) (k : String) (v : α) :
    List (String × α) :=
  match m with
  | [] => [(k, v)]
  | (k', v') :: t => if k' = k then (k, v) :: t else (k', v') :: dictSet t k v

/-! ### Songs (library.py `Song`) -/

/-- The `Song` record: `filename`, `date_added` (a timestamp, carried as its
ISO-8601 string since the embedding never computes with dates), and the
free-form `metadata` mapping (tag values modelled as strings). -/
structure Song where
  filename : String
  date_added : String
  metadata : List (String × String)
deriving DecidableEq, Repr

/-- The tuple `Song.ALLOWED_ATTRS` from library.py. -/
def ALLOWED_ATTRS : List String := ["filename", "date_added"]

/-- Embeds `Song.get_attr` (library.py lines 197-208).  For `attr` in
`ALLOWED_ATTRS` the code executes `return self.getattr(attr)`; `Song` defines
no attribute named `getattr` (the intent was clearly `getattr(self, attr)`),
so that branch raises `AttributeError` for every such `attr`.  Otherwise the
metadata mapping is consulted, and `None` is returned when the key is unset. -/
def Song.get_attr (s : Song) (attr : String) : Except Unit (Option String) :=
  if attr ∈ ALLOWED_ATTRS then .error ()
  else .ok (dictGet s.metadata attr)

/-! ### Condition constants and leaf evaluation (playlists.py) -/

def CONDITION_IS : Nat := 1
def CONDITION_IS_NOT : Nat := 2
def CONDITION_CONTAINS : Nat := 3
def CONDITION_DOES_NOT_CONTAIN : Nat := 4
def CONDITION_IN : Nat := 5
def CONDITION_NOT_IN : Nat := 6
def CONDITION_CONTAINS_ALL : Nat := 7
def CONDITION_CONTAINS_ANY : Nat := 8
def CONDITION_CONTAINS_NONE : Nat := 9

/-- The table `CONDITION_MAPPING`: english phrase to internal constant. -/
def CONDITION_MAPPING : List (String × Nat) :=
  [("is", CONDITION_IS), ("is not", CONDITION_IS_NOT),
   ("contains", CONDITION_CONTAINS), ("does not contain", CONDITION_DOES_NOT_CONTAIN),
   ("in", CONDITION_IN), ("not in", CONDITION_NOT_IN),
   ("contains all", CONDITION_CONTAINS_ALL), ("contains any", CONDITION_CONTAINS_ANY),
   ("contains none", CONDITION_CONTAINS_NONE)]

/-- The reverse table `CONDITION_MAPPING_REVERSE`: internal constant to english phrase. -/
def conditionPhrase (c : Nat) : Option String :=
  (CONDITION_MAPPING.find? (fun p => p.2 = c)).map Prod.fst

/-- The keys of the `CONDITIONS_SINGLE` table. -/
def SINGLE_KEYS : List Nat :=
  [CONDITION_IS, CONDITION_IS_NOT, CONDITION_CONTAINS, CONDITION_DOES_NOT_CONTAIN]

/-- The keys of the `CONDITIONS_MULTIPLE` table. -/
def MULTIPLE_KEYS : List Nat :=
  [CONDITION_IN, CONDITION_NOT_IN, CONDITION_CONTAINS_ALL, CONDITION_CONTAINS_ANY,
   CONDITION_CONTAINS_NONE]

/-- Python `==` between a `None`-or-string current value and a raw string rule
value (`None == rule` is `False`). -/
def pyEqScalar (cur : Option String) (rule : String) : Bool :=
  match cur with
  | none => false
  | some s => s = rule

/-- Embeds the `CONDITIONS_SINGLE` lambda table (playlists.py lines 102-111),
evaluated at a cleaned current value `cur` and the raw scalar rule value.

  * `is`: `cur == rule`.
  * `is not`: `cur != rule`.
  * `contains`: `cur and rule in cur` — falsy `cur` short-circuits to false.
  * `does not contain`: `cur or rule not in cur` — a truthy `cur`
    short-circuits to true (regardless of containment); for `cur = None` the
    remaining `rule not in cur` raises `TypeError` (`NoneType` not iterable).

A key outside the table is a `KeyError` at the lookup site. -/
def condSingle (check : Nat) (cur : Option String) (rule : String) :
    Except Unit Bool :=
  if check = CONDITION_IS then .ok (pyEqScalar cur rule)
  else if check = CONDITION_IS_NOT then .ok (!pyEqScalar cur rule)
  else if check = CONDITION_CONTAINS then
    .ok (truthy cur && strIn rule ((cur.getD "")))
  else if check = CONDITION_DOES_NOT_CONTAIN then
    if truthy cur then .ok true
    else
      match cur with
      | none => .error ()
      | some s => .ok (!strIn rule s)
  else .error ()

/-- Python `==` between two `None`-or-string values (`None == None` is true). -/
def pyEqOpt (a b : Option String) : Bool :=
  match a, b with
  | none, none => true
  | some x, some y => x = y
  | _, _ => false

/-- Short-circuiting Python `all` over a fallible generator. -/
def allE {α : Type} (f : α → Except Unit Bool) : List α → Except Unit Bool
  | [] => .ok true
  | x :: t => do if (← f x) then allE f t else pure false

/-- Short-circuiting Python `any` over a fallible generator. -/
def anyE {α : Type} (f : α → Except Unit Bool) : List α → Except Unit Bool
  | [] => .ok false
  | x :: t => do if (← f x) then pure true else anyE f t

/-- Python `r in cur` for a cleaned rule element `r` (which may be `None`) and
a truthy current string `cur` — `None in str` raises `TypeError`. -/
def ruleElemIn (cur : String) (r : Option String) : Except Unit Bool :=
  match r with
  | none => .error ()
  | some rs => .ok (strIn rs cur)

/-- Embeds the `CONDITIONS_MULTIPLE` lambda table (playlists.py lines
114-125), at a cleaned current value and the cleaned rule elements.

  * `in` / `not in`: Python list membership of `cur` in `rule`.
  * `contains all` / `contains any` / `contains none`: generator expressions
    of the shape `(r in cur for r in rule if cur)` — the `if cur` guard is
    constant, so a falsy `cur` yields the empty generator (`all` = true,
    `any` = false). -/
def condMultiple (check : Nat) (cur : Option String) (rule : List (Option String)) :
    Except Unit Bool :=
  if check = CONDITION_IN then .ok (rule.any (fun r => pyEqOpt cur r))
  else if check = CONDITION_NOT_IN then .ok (!rule.any (fun r => pyEqOpt cur r))
  else if check = CONDITION_CONTAINS_ALL then
    if truthy cur then allE (ruleElemIn (cur.getD "")) rule else .ok true
  else if check = CONDITION_CONTAINS_ANY then
    if truthy cur then anyE (ruleElemIn (cur.getD "")) rule else .ok false
  else if check = CONDITION_CONTAINS_NONE then
    if truthy cur then do pure (!(← anyE (ruleElemIn (cur.getD "")) rule))
    else .ok true
  else .error ()

/-! ### Condition trees and `AutoPlaylist.matches` -/

/-- A leaf's rule value: a scalar, or a sequence of values. -/
inductive CVal where
  | scalar (v : String)
  | seq (vs : List String)
deriving DecidableEq, Repr

/-- An in-memory condition node as built by `AutoPlaylist.unserialize`: a
combinator dict (`type` is the string "and"/"or", plus child conditions) or a
leaf dict (`type` is an internal integer constant, plus `attr` and `value`;
the stored `func` is determined by `type` and the value's shape, so it is not
carried separately). -/
inductive Cond where
  | comb (op : String) (children : List Cond)
  | leaf (ctype : Nat) (attr : String) (value : CVal)

/-- The `clean` lambda from `AutoPlaylist.matches`:
`lambda s: s.lower().strip() if s else None`. -/
def clean : Option String → Option String
  | none => none
  | some s => if s = "" then none else some (pyStrip (pyLower s))

/-- The function `clean` applied to a (present) raw rule element. -/
def cleanS (s : String) : Option String := clean (some s)

/-- Embeds the leaf branch of `matches_condition` (playlists.py lines
156-165): fetch the attribute, clean the fetched value, clean each element of
a list-valued rule (a scalar rule value is passed to the operator unchanged),
then apply the stored operator function. -/
def evalLeaf (song : Song) (ctype : Nat) (attr : String) (value : CVal) :
    Except Unit Bool := do
  let val ← song.get_attr attr
  let cur := clean val
  match value with
  | .scalar v => condSingle ctype cur v
  | .seq vs => condMultiple ctype cur (vs.map cleanS)

mutual

/-- Embeds `matches_condition` (playlists.py lines 152-165).  Combinators use
short-circuiting `all`/`any`; a combinator whose `type` string is neither
"and" nor "or" falls into the leaf branch and raises `KeyError` on `attr`. -/
def matchesCond (song : Song) : Cond → Except Unit Bool
  | .comb op children =>
    if op = "or" then matchesAny song children
    else if op = "and" then matchesAll song children
    else .error ()
  | .leaf ctype attr value => evalLeaf song ctype attr value

/-- Short-circuiting `all(matches_condition(c) for c in children)`. -/
def matchesAll (song : Song) : List Cond → Except Unit Bool
  | [] => .ok true
  | c :: t => do if (← matchesCond song c) then matchesAll song t else pure false

/-- Short-circuiting `any(matches_condition(c) for c in children)`. -/
def matchesAny (song : Song) : List Cond → Except Unit Bool
  | [] => .ok false
  | c :: t => do if (← matchesCond song c) then pure true else matchesAny song t

end

/-- Embeds `AutoPlaylist.matches` (playlists.py line 167): the condition list
is wrapped in the implicit top-level "and" by `get_conditions`. -/
def matchesConds (conditions : List Cond) (song : Song) : Except Unit Bool :=
  matchesCond song (.comb "and" conditions)

/-! ### Filename generation (library.py `gen_filename`) -/

/-- Python `os.path.basename`: the part of the path after the last `/`. -/
def basename (p : String) : String :=
  ⟨(p.data.reverse.takeWhile (fun c => !(c = '/'))).reverse⟩

/-- Index of the last occurrence of `c` in `cs`, if any. -/
def lastIdxOf (c : Char) (cs : List Char) : Option Nat :=
  match cs.reverse.findIdx? (fun x => x = c) with
  | none => none
  | some j => some (cs.length - 1 - j)

/-- Python `os.path.splitext` on a basename (no path separator): split at the last
dot, provided some character before that dot is not itself a dot (so entirely
dot-led names such as `.bashrc` have no extension). -/
def splitext (b : String) : String × String :=
  match lastIdxOf '.' b.data with
  | none => (b, "")
  | some i =>
    if (b.data.take i).any (fun c => !(c = '.')) then
      (⟨b.data.take i⟩, ⟨b.data.drop i⟩)
    else (b, "")

/-- The character class `[a-zA-Z0-9\-_]` of `gen_filename`. -/
def keepChar (c : Char) : Bool := c.isAlphanum || c = '-' || c = '_'

/-- Embeds `gen_filename` (library.py lines 210-225): take the basename, split
off the extension, replace spaces with hyphens in the stem, drop every
character outside `[a-zA-Z0-9\-_]`, and re-attach the extension verbatim. -/
def gen_filename (path : String) : String :=
  let b := basename path
  let parts := splitext b
  let name := (parts.1.data.map (fun c => if c = ' ' then '-' else c)).filter keepChar
  ⟨name⟩ ++ parts.2

/-! ### Exports, playlists, and the Library (library.py, exports.py) -/

/-- The `FlatDirExport` configuration state (the only export variant). -/
structure Export where
  music_dir : String
  playlist_dir : String
deriving DecidableEq, Repr

/-- A playlist: `SimplePlaylist` (explicit song list) or `AutoPlaylist`
(sort spec plus condition list). -/
inductive Playlist where
  | simple (songs : List Song)
  | auto (sort : List String) (conditions : List Cond)

/-- The `AutoPlaylist` class default sort spec. -/
def DEFAULT_SORT : List String := ["artist", "title"]

/-- The `Library` class default extension allow-list. -/
def DEFAULT_EXTENSIONS : List String := ["mp3", "mp4", "wav", "m4a", "flac"]

/-- The in-memory `Library` state: extension allow-list plus the three
name-keyed mappings (the `path` attribute plays no role in the claims). -/
structure Library where
  extensions : List String
  songs : List (String × Song)
  exports : List (String × Export)
  playlists : List (String × Playlist)

/-- A freshly constructed `Library` before any loading: the class-attribute
defaults (empty containers, the default extension list). -/
def freshLibrary : Library :=
  { extensions := DEFAULT_EXTENSIONS, songs := [], exports := [], playlists := [] }

/-- Embeds `Library.set_defaults` (library.py lines 46-52): add the
"last-added" `AutoPlaylist()` (class defaults: empty conditions, default
sort) unless a playlist of that name already exists. -/
def Library.set_defaults (lib : Library) : Library :=
  if (dictGet lib.playlists "last-added").isSome then lib
  else { lib with playlists := dictSet lib.playlists "last-added" (.auto DEFAULT_SORT []) }

/-- Embeds the catalog effect of `Library.add_song` (library.py lines
144-171).  The file copy/move and the tag-extraction collaborator are
modelled by the `tags` parameter: `some m` when `get_tags` returned the
mapping `m`, `none` when it raised `UnableToReadTagsException` (in which case
the song keeps its empty metadata and only a warning is printed).  The song is
stored with `self.songs[song.filename] = song` — no collision check of any
kind is performed, so an existing record under the same generated filename is
silently replaced. -/
def Library.add_song (lib : Library) (path : String) (date_added : String)
    (tags : Option (List (String × String))) : Library × Song :=
  let filename := gen_filename path
  let song : Song := ⟨filename, date_added, tags.getD []⟩
  ({ lib with songs := dictSet lib.songs song.filename song }, song)

/-- Modelled from the spec: `Library.remove_song` is invoked by the CLI
`remove` command (cli.py line 73) but is defined nowhere in the repository.
The spec says: "`remove(filename)`: removes the song record only; never
deletes the underlying media file".  Accordingly the model removes the key
from the songs mapping and touches nothing else. -/
def Library.remove_song (lib : Library) (filename : String) : Library :=
  { lib with songs := lib.songs.filter (fun p => !(p.1 = filename)) }

/-! ### Serialization (library.py `get_config`/`load_config`,
playlists.py `serialize`/`unserialize`) -/

/-- Left-to-right fallible map (a Python comprehension whose element
expression may raise). -/
def mapE {α β : Type} (f : α → Except Unit β) : List α → Except Unit (List β)
  | [] => .ok []
  | x :: t => do pure ((← f x) :: (← mapE f t))

/-- Fallible map over the values of an association list (a Python dict
comprehension). -/
def mapAssocE {α β : Type} (f : α → Except Unit β) :
    List (String × α) → Except Unit (List (String × β))
  | [] => .ok []
  | (k, v) :: t => do pure ((k, ← f v) :: (← mapAssocE f t))

/-- A serialized condition: the JSON list `[combinator, [children...]]` or
`[attr, operator-phrase, value]` (playlists.py `serialize_condition`). -/
inductive SerCond where
  | comb (name : String) (children : List SerCond)
  | leaf (attr : String) (phrase : String) (value : CVal)

mutual

/-- Embeds `serialize_condition` (playlists.py lines 176-188).  A combinator
whose `type` is neither "and" nor "or" falls through to the leaf branch and
raises `KeyError` on `attr`; a leaf whose integer `type` is not a key of
`CONDITION_MAPPING_REVERSE` raises `KeyError` there. -/
def serializeCond : Cond → Except Unit SerCond
  | .comb op cs =>
    if op = "and" ∨ op = "or" then do pure (.comb op (← serializeConds cs))
    else .error ()
  | .leaf t a v =>
    match conditionPhrase t with
    | some phrase => .ok (.leaf a phrase v)
    | none => .error ()

/-- The comprehension `[serialize_condition(c) for c in condition["conditions"]]`. -/
def serializeConds : List Cond → Except Unit (List SerCond)
  | [] => .ok []
  | c :: t => do pure ((← serializeCond c) :: (← serializeConds t))

end

mutual

/-- Embeds `unserialize_condition` (playlists.py lines 196-223).  A 2-element
list whose head is not "and"/"or" raises; a leaf looks its phrase up in
`CONDITION_MAPPING` (`KeyError` when absent) and then selects the operator
function from `CONDITIONS_MULTIPLE` for a list value and `CONDITIONS_SINGLE`
for a scalar value (`KeyError` when the constant is not in that table). -/
def unserializeCond : SerCond → Except Unit Cond
  | .comb name children =>
    if name = "and" ∨ name = "or" then do pure (.comb name (← unserializeConds children))
    else .error ()
  | .leaf attr phrase v =>
    match dictGet CONDITION_MAPPING phrase with
    | none => .error ()
    | some check =>
      match v with
      | .scalar _ => if check ∈ SINGLE_KEYS then .ok (.leaf check attr v) else .error ()
      | .seq _ => if check ∈ MULTIPLE_KEYS then .ok (.leaf check attr v) else .error ()

/-- The comprehension `[unserialize_condition(c) for c in condition[1]]`. -/
def unserializeConds : List SerCond → Except Unit (List Cond)
  | [] => .ok []
  | c :: t => do pure ((← unserializeCond c) :: (← unserializeConds t))

end

mutual

/-- A condition tree is valid when every combinator is "and"/"or" and every
leaf's operator constant matches its value's arity (the §3 invariant): a
scalar value with a `CONDITIONS_SINGLE` operator, a sequence value with a
`CONDITIONS_MULTIPLE` operator.  `unserialize_condition` only ever builds
such trees. -/
def Cond.valid : Cond → Bool
  | .comb op cs => (op = "and" || op = "or") && Cond.validList cs
  | .leaf t _ v =>
    match v with
    | .scalar _ => decide (t ∈ SINGLE_KEYS)
    | .seq _ => decide (t ∈ MULTIPLE_KEYS)

/-- The check `Cond.valid` for every member of a list. -/
def Cond.validList : List Cond → Bool
  | [] => true
  | c :: t => Cond.valid c && Cond.validList t

end

/-- A serialized song record (`_serialize_songs`): `filename`, `date_added`
(written with `isoformat()` and read back with `dateutil.parser.parse`, a
round-trip modelled as carrying the ISO string), and an optional `metadata`
mapping. -/
structure SongCfg where
  filename : String
  date_added : String
  metadata : Option (List (String × String))
deriving DecidableEq, Repr

/-- The `serialize_song` closure (library.py lines 112-119). -/
def serializeSong (s : Song) : SongCfg :=
  ⟨s.filename, s.date_added, some s.metadata⟩

/-- The `unserialize_song` closure (library.py lines 124-128): a missing
`metadata` key defaults to the empty mapping. -/
def unserializeSong (c : SongCfg) : Song :=
  ⟨c.filename, c.date_added, c.metadata.getD []⟩

/-- A serialized export record: type discriminator plus the FlatDir fields. -/
structure ExportCfg where
  etype : String
  music_dir : String
  playlist_dir : String
deriving DecidableEq, Repr

/-- Embeds `FlatDirExport.serialize` (exports.py lines 62-66). -/
def serializeExport (e : Export) : ExportCfg :=
  ⟨"flatdir", e.music_dir, e.playlist_dir⟩

/-- Embeds `unserialize_export` (library.py lines 104-107): dispatch on the `type`
discriminator through `EXPORT_MAPPING` (`KeyError` for an unknown type), then
`FlatDirExport.unserialize` (exports.py lines 68-71). -/
def unserializeExport (c : ExportCfg) : Except Unit Export :=
  if c.etype = "flatdir" then .ok ⟨c.music_dir, c.playlist_dir⟩ else .error ()

/-- A serialized playlist record: type discriminator plus the per-variant
fields (`songs` for simple, `conditions`/`sort` for auto). -/
structure PlistCfg where
  ptype : String
  songs : Option (List String)
  conditions : Option (List SerCond)
  sort : Option (List String)

/-- Embeds `SimplePlaylist.serialize` and `AutoPlaylist.serialize`
(playlists.py lines 63-66 and 169-192).  The auto variant serializes
`get_conditions()` and strips the implicit top-level "and" wrapper, which
amounts to serializing each member of `conditions`. -/
def serializePlaylist : Playlist → Except Unit PlistCfg
  | .simple ss => .ok ⟨"simple", some (ss.map (fun s => s.filename)), none, none⟩
  | .auto srt conds => do pure ⟨"auto", none, some (← serializeConds conds), some srt⟩

/-- Embeds `Library.get_song` under `Except`: `self.songs[filename]` raises
`KeyError` when the filename is not a key. -/
def getSongE (songs : List (String × Song)) (f : String) : Except Unit Song :=
  match dictGet songs f with
  | some s => .ok s
  | none => .error ()

/-- Embeds `unserialize_playlist` (library.py lines 136-139) together with
the two variants' `unserialize` (playlists.py lines 68-70 and 195-230):
dispatch on the type discriminator (`KeyError` when unknown); simple
playlists resolve each stored filename through the already-loaded song
mapping; auto playlists read `sort` (class default when absent) and
unserialize the condition list, re-wrapping it in the implicit "and" and then
taking the wrapper's children back off. -/
def unserializePlaylist (songs : List (String × Song)) (c : PlistCfg) :
    Except Unit Playlist :=
  if c.ptype = "simple" then
    match c.songs with
    | none => .error ()
    | some fnames => do pure (.simple (← mapE (getSongE songs) fnames))
  else if c.ptype = "auto" then
    match c.conditions with
    | none => .error ()
    | some scs => do pure (.auto (c.sort.getD DEFAULT_SORT) (← unserializeConds scs))
  else .error ()

/-- A parsed configuration document; each top-level field may be absent. -/
structure Config where
  extensions : Option (List String)
  exports : Option (List (String × ExportCfg))
  playlists : Option (List (String × PlistCfg))
  songs : Option (List (String × SongCfg))

/-- Embeds `Library.get_config` (library.py lines 86-97) with the four
serializers (lines 100-141). -/
def Library.get_config (lib : Library) : Except Unit Config := do
  pure { extensions := some lib.extensions,
         exports := some (lib.exports.map (fun p => (p.1, serializeExport p.2))),
         playlists := some (← mapAssocE serializePlaylist lib.playlists),
         songs := some (lib.songs.map (fun p => (p.1, serializeSong p.2))) }

/-- The `songs` stage of `load_config`: a present field is unserialized
entry-wise; a missing field was first replaced by the library's current
`self.songs` (`config[attr] = getattr(self, attr)`), on which
`_unserialize_songs` then runs — the empty mapping round-trips to the empty
mapping, but any in-memory `Song` object raises `TypeError` at
`song["filename"]`. -/
def loadSongsField (lib : Library) (cfg : Config) :
    Except Unit (List (String × Song)) :=
  match cfg.songs with
  | some sc => .ok (sc.map (fun p => (p.1, unserializeSong p.2)))
  | none => if lib.songs.isEmpty then .ok [] else .error ()

/-- The `exports` stage of `load_config` (same missing-field behavior:
`config["type"]` on an in-memory `Export` object raises `TypeError`). -/
def loadExportsField (lib : Library) (cfg : Config) :
    Except Unit (List (String × Export)) :=
  match cfg.exports with
  | some ec => mapAssocE unserializeExport ec
  | none => if lib.exports.isEmpty then .ok [] else .error ()

/-- The `playlists` stage of `load_config`, resolving simple-playlist song
references against the freshly loaded songs mapping (same missing-field
behavior as the other stages). -/
def loadPlaylistsField (lib : Library) (songs : List (String × Song))
    (cfg : Config) : Except Unit (List (String × Playlist)) :=
  match cfg.playlists with
  | some pc => mapAssocE (unserializePlaylist songs) pc
  | none => if lib.playlists.isEmpty then .ok [] else .error ()

/-- Embeds `Library.load_config` (library.py lines 59-70).  A missing
top-level field is first replaced by the library's current attribute value;
fields are then unserialized in source order (extensions is a plain
assignment; songs, exports, playlists may raise). -/
def Library.load_config (lib : Library) (cfg : Config) : Except Unit Library :=
  match loadSongsField lib cfg with
  | .error e => .error e
  | .ok songs =>
    match loadExportsField lib cfg with
    | .error e => .error e
    | .ok exports =>
      match loadPlaylistsField lib songs cfg with
      | .error e => .error e
      | .ok playlists =>
        .ok { extensions := cfg.extensions.getD lib.extensions,
              songs := songs, exports := exports, playlists := playlists }

/-- A playlist is a valid record with respect to a songs mapping when: a
simple playlist's songs are exactly the records stored under their filenames
(referential integrity), and an auto playlist's condition tree is valid. -/
def Playlist.validIn (songsMap : List (String × Song)) : Playlist → Bool
  | .simple ss => ss.all (fun s => decide (dictGet songsMap s.filename = some s))
  | .auto _ conds => Cond.validList conds

/-- A catalog built purely from valid records: every playlist is a valid
record with respect to the catalog's songs mapping. -/
def Library.validRecords (lib : Library) : Bool :=
  lib.playlists.all (fun p => p.2.validIn lib.songs)

/-! ### Multi-key sorting and `AutoPlaylist.get_songs` (playlists.py 139-149) -/

/-- Python `field.startswith("!")`. -/
def isDescField (f : String) : Bool :=
  match f.data with
  | '!' :: _ => true
  | _ => false

/-- The sort key name with a leading `!` stripped (`field = field[1:]`). -/
def stripDesc (f : String) : String :=
  if isDescField f then ⟨f.data.drop 1⟩ else f

/-- The per-song sort key `song.get_attr(field) or ""` for a (stripped)
metadata attribute: a missing value — and an empty one — sorts as the empty
string. -/
def songKey (attr : String) (s : Song) : String :=
  (dictGet s.metadata attr).getD ""

/-- The sort key of a possibly-`!`-prefixed field name. -/
def keyVal (f : String) (s : Song) : String := songKey (stripDesc f) s

/-- The boolean comparison of one `songs.sort(key=..., reverse=reverse)`
pass: ascending by key, or descending when the field is `!`-prefixed.  A
stable sort against this comparison is exactly Python's stable `list.sort`
(with `reverse=True` for the descending case): a stable sort of a list with
respect to a total preorder is uniquely determined, so modelling the pass
with `List.mergeSort` is exact. -/
def fieldLe (f : String) (a b : Song) : Bool :=
  if isDescField f then decide (keyVal f b ≤ keyVal f a)
  else decide (keyVal f a ≤ keyVal f b)

/-- Embeds the sort loop of `AutoPlaylist.get_songs`: one stable sort per
field, iterating over `reversed(self.sort)` — so the head of the sort spec is
sorted last.  The sort key calls `song.get_attr(field)` on every element: if
the stripped field is in `ALLOWED_ATTRS` this raises `AttributeError` (see
`Song.get_attr`) as soon as the list is non-empty. -/
def sortSongs : List String → List Song → Except Unit (List Song)
  | [], l => .ok l
  | f :: fs, l => do
    let l' ← sortSongs fs l
    if stripDesc f ∈ ALLOWED_ATTRS ∧ l' ≠ [] then .error ()
    else .ok (l'.mergeSort (fieldLe f))

/-- Left-to-right fallible filter (the matching comprehension of
`get_songs`). -/
def filterE {α : Type} (f : α → Except Unit Bool) : List α → Except Unit (List α)
  | [] => .ok []
  | x :: t => do
    if (← f x) then do pure (x :: (← filterE f t)) else filterE f t

/-- Embeds `AutoPlaylist.get_songs` (playlists.py lines 139-149): filter the
catalog's songs (in mapping order) by `matches`, then run the multi-key sort
loop. -/
def getSongs (sort : List String) (conds : List Cond) (lib : Library) :
    Except Unit (List Song) := do
  sortSongs sort (← filterE (matchesConds conds) (lib.songs.map Prod.snd))

/-- The tuple of sort keys of a song under a sort spec. -/
def keyTuple (spec : List String) (s : Song) : List String :=
  spec.map (fun f => keyVal f s)

/-- Strict ordering on one sort field, oriented by its `!` prefix. -/
def fieldLt (f : String) (a b : Song) : Prop :=
  if isDescField f then keyVal f b < keyVal f a else keyVal f a < keyVal f b

/-- Lexicographic ordering induced by a sort spec, honoring key priority left
to right: earlier fields dominate, each oriented by its own `!` prefix. -/
def lexLe : List String → Song → Song → Prop
  | [] => fun _ _ => True
  | f :: fs => fun a b => fieldLt f a b ∨ (keyVal f a = keyVal f b ∧ lexLe fs a b)

/-! ### Directory clearing and the FlatDir export (io.py, exports.py) -/

/-- One entry of a directory, as the deletion loop of `ensure_empty_dir`
inspects it: `isLink` is `os.path.islink` (true for symlinks), `isDir` is
`os.path.isdir` (which follows symlinks). -/
structure Entry where
  name : String
  isLink : Bool
  isDir : Bool
deriving DecidableEq, Repr

/-- Embeds the deletion loop of `ensure_empty_dir` (io.py lines 43-59) with
`only_delete_symlinks=True, allow_delete_dirs=False`, the flags used by
`FlatDirExport.update_song_symlinks`.  Entries are visited in listing order;
a non-symlink entry (or a symlink resolving to a directory) makes the
program exit fatally, with every entry from that point on still present —
but entries already visited have been deleted one by one.  `.error rem`
returns the directory contents `rem` at the moment of the fatal exit;
`.ok ()` means the directory was fully emptied. -/
def ensureEmptyDirLinksOnly : List Entry → Except (List Entry) Unit
  | [] => .ok ()
  | e :: rest =>
    if !e.isLink then .error (e :: rest)
    else if e.isDir then .error (e :: rest)
    else ensureEmptyDirLinksOnly rest

/-- Embeds the music-directory phase of `FlatDirExport.update`
(exports.py lines 40-50): `update_song_symlinks` clears the export music
directory via `ensureEmptyDirLinksOnly` and then creates one symlink per
catalog song.  `update` runs this phase first, so a fatal exit here is a
fatal exit of the whole export; `.error rem` carries the music directory's
contents at that point, `.ok entries` the new symlink farm. -/
def update_song_symlinks (songs : List (String × Song)) (musicDir : List Entry) :
    Except (List Entry) (List Entry) :=
  match ensureEmptyDirLinksOnly musicDir with
  | .error rem => .error rem
  | .ok () => .ok (songs.map (fun p => ⟨p.2.filename, true, false⟩))

/-! ## Helper lemmas -/

theorem exceptBind_ok {ε α β : Type} {x : Except ε α} {f : α → Except ε β} {b : β} :
    (x >>= f) = .ok b ↔ ∃ a, x = .ok a ∧ f a = .ok b := by
  cases x <;> simp [Bind.bind, Except.bind]

theorem dictGet_dictSet_self {α : Type} (m : List (String × α)) (k : String) (v : α) :
    dictGet (dictSet m k v) k = some v := by
  induction m with
  | nil => simp [dictSet, dictGet]
  | cons p t ih =>
    by_cases h : p.1 = k
    · simp [dictSet, dictGet, h]
    · simp [dictSet, dictGet, h, ih]

theorem dictGet_dictSet_ne {α : Type} (m : List (String × α)) (k k' : String) (v : α)
    (h : ¬ k' = k) : dictGet (dictSet m k v) k' = dictGet m k' := by
  have h' : ¬ k = k' := fun hh => h hh.symm
  induction m with
  | nil => simp [dictSet, dictGet, h']
  | cons p t ih =>
    by_cases hp : p.1 = k
    · simp [dictSet, dictGet, hp, h']
    · simp [dictSet, dictGet, hp, ih]

theorem dictGet_filterOut_self {α : Type} (m : List (String × α)) (f : String) :
    dictGet (m.filter (fun p => !(p.1 = f))) f = none := by
  induction m with
  | nil => simp [dictGet]
  | cons p t ih =>
    by_cases h : p.1 = f
    · simp [List.filter, h, ih]
    · simp [List.filter, h, dictGet, ih]

theorem dictGet_filterOut_ne {α : Type} (m : List (String × α)) (f k : String)
    (h : ¬ k = f) : dictGet (m.filter (fun p => !(p.1 = f))) k = dictGet m k := by
  have h' : ¬ f = k := fun hh => h hh.symm
  induction m with
  | nil => simp [dictGet]
  | cons p t ih =>
    by_cases hp : p.1 = f
    · simp [List.filter, hp, dictGet, h', ih]
    · simp [List.filter, hp, dictGet, ih]

theorem pyEqScalar_eq_true_iff (cur : Option String) (v : String) :
    pyEqScalar cur v = true ↔ cur = some v := by
  cases cur <;> simp [pyEqScalar]

theorem pyEqOpt_eq_true_iff (a b : Option String) : pyEqOpt a b = true ↔ a = b := by
  cases a <;> cases b <;> simp [pyEqOpt]

theorem matchesCond_leaf (s : Song) (t : Nat) (a : String) (v : CVal) :
    matchesCond s (.leaf t a v) = evalLeaf s t a v := by
  simp [matchesCond]

theorem matchesConds_singleton (s : Song) (c : Cond) (b : Bool)
    (h : matchesCond s c = .ok b) : matchesConds [c] s = .ok b := by
  have : matchesAll s [c] = .ok b := by
    simp only [matchesAll, h, Bind.bind, Except.bind]
    cases b <;> simp [matchesAll, pure, Except.pure]
  simpa [matchesConds, matchesCond]

theorem evalLeaf_is (s : Song) (attr v : String) (h : ¬ attr ∈ ALLOWED_ATTRS) :
    evalLeaf s CONDITION_IS attr (.scalar v) =
      .ok (pyEqScalar (clean (dictGet s.metadata attr)) v) := by
  simp [evalLeaf, Song.get_attr, h, condSingle, Bind.bind, Except.bind]

theorem evalLeaf_in (s : Song) (attr : String) (vs : List String)
    (h : ¬ attr ∈ ALLOWED_ATTRS) :
    evalLeaf s CONDITION_IN attr (.seq vs) =
      .ok ((vs.map cleanS).any
        (fun r => pyEqOpt (clean (dictGet s.metadata attr)) r)) := by
  simp [evalLeaf, Song.get_attr, h, condMultiple, CONDITION_IN, CONDITION_IS,
    CONDITION_IS_NOT, CONDITION_CONTAINS, CONDITION_DOES_NOT_CONTAIN,
    Bind.bind, Except.bind]

/-! ## C1: filename collision policy of `add_song` -/

/-- C1, counterexample: the claim says a collision makes `add_song` fail with
a typed collision error without replacing the existing record.  In fact
adding `a.mp3` to a library whose songs mapping already has the key `a.mp3`
succeeds and replaces the old record (date 2020) with the new one (date
2021). -/
theorem add_song_collision_counterexample :
    (Musicman.Library.add_song
        ⟨DEFAULT_EXTENSIONS, [("a.mp3", ⟨"a.mp3", "2020-01-01T00:00:00", []⟩)], [], []⟩
        "a.mp3" "2021-06-01T00:00:00" none).1.songs =
      [("a.mp3", ⟨"a.mp3", "2021-06-01T00:00:00", []⟩)] ∧
    ¬ (⟨"a.mp3", "2021-06-01T00:00:00", []⟩ : Song) =
        ⟨"a.mp3", "2020-01-01T00:00:00", []⟩ := by
  exact ⟨rfl, by decide⟩

/-- C1, amended: `add_song` performs no collision check at all — when the
generated filename is already a key of `songs`, the call succeeds and the
existing song record is silently replaced by the freshly built record, other
keys being untouched. -/
theorem add_song_overwrites (lib : Library) (path d : String)
    (tags : Option (List (String × String)))
    (h : (dictGet lib.songs (gen_filename path)).isSome = true) :
    dictGet (lib.add_song path d tags).1.songs (gen_filename path) =
      some ⟨gen_filename path, d, tags.getD []⟩ ∧
    (∀ k, ¬ k = gen_filename path →
      dictGet (lib.add_song path d tags).1.songs k = dictGet lib.songs k) := by
  refine ⟨?_, ?_⟩
  · simpa [Library.add_song] using dictGet_dictSet_self lib.songs (gen_filename path) _
  · intro k hk
    simpa [Library.add_song] using dictGet_dictSet_ne lib.songs (gen_filename path) k _ hk

/-- C1, witness for `add_song_overwrites` at a concrete collision. -/
theorem add_song_overwrites_witness :
    (dictGet ([("b.mp3", (⟨"b.mp3", "2020-01-01T00:00:00", []⟩ : Song))])
        (gen_filename "b.mp3")).isSome = true ∧
    (dictGet (Musicman.Library.add_song
        ⟨DEFAULT_EXTENSIONS, [("b.mp3", ⟨"b.mp3", "2020-01-01T00:00:00", []⟩)], [], []⟩
        "b.mp3" "2021-06-01T00:00:00" none).1.songs (gen_filename "b.mp3") =
      some ⟨gen_filename "b.mp3", "2021-06-01T00:00:00", (none).getD []⟩ ∧
    (∀ k, ¬ k = gen_filename "b.mp3" →
      dictGet (Musicman.Library.add_song
          ⟨DEFAULT_EXTENSIONS, [("b.mp3", ⟨"b.mp3", "2020-01-01T00:00:00", []⟩)], [], []⟩
          "b.mp3" "2021-06-01T00:00:00" none).1.songs k =
        dictGet [("b.mp3", (⟨"b.mp3", "2020-01-01T00:00:00", []⟩ : Song))] k)) :=
  ⟨by decide, add_song_overwrites
    ⟨DEFAULT_EXTENSIONS, [("b.mp3", ⟨"b.mp3", "2020-01-01T00:00:00", []⟩)], [], []⟩
    "b.mp3" "2021-06-01T00:00:00" none (by decide)⟩

/-! ## C2: the `does not contain` operator -/

/-- C2, counterexample: the code evaluates `cur or rule not in cur`, so
(first conjunct) a song whose normalized attribute value is the non-empty
string "hello world" *matches* `does not contain "hello"` even though it
does contain "hello" (third conjunct) — the claim demands false there — and
(second conjunct) a song with the attribute absent raises `TypeError`
(`"hello" not in None`) instead of being treated as the empty string and
matching. -/
theorem does_not_contain_bug :
    matchesConds [.leaf CONDITION_DOES_NOT_CONTAIN "artist" (.scalar "hello")]
      ⟨"s.mp3", "2020-01-01T00:00:00", [("artist", "hello world")]⟩ = .ok true ∧
    matchesConds [.leaf CONDITION_DOES_NOT_CONTAIN "artist" (.scalar "hello")]
      ⟨"s.mp3", "2020-01-01T00:00:00", []⟩ = .error () ∧
    strIn "hello" (pyStrip (pyLower "hello world")) = true :=
  ⟨rfl, rfl, rfl⟩

theorem matchesConds_singleton_error (s : Song) (c : Cond)
    (h : matchesCond s c = .error ()) : matchesConds [c] s = .error () := by
  simp [matchesConds, matchesCond, matchesAll, h, Bind.bind, Except.bind]

/-- C2, amended: a `does not contain` leaf with a scalar rule value behaves
as `cur or rule not in cur` on the normalized current value: a non-empty
normalized value matches unconditionally (whether or not it contains the
rule value); a normalized value that is the empty string (a whitespace-only
attribute) matches iff the raw rule value is not contained in the empty
string; and an absent attribute (or one normalizing to `None`) raises
`TypeError` instead of being treated as the empty string. -/
theorem does_not_contain_semantics (s : Song) (attr v : String)
    (h : ¬ attr ∈ ALLOWED_ATTRS) :
    matchesConds [.leaf CONDITION_DOES_NOT_CONTAIN attr (.scalar v)] s =
      (match clean (dictGet s.metadata attr) with
       | none => .error ()
       | some c => .ok (!(c = "") || !strIn v c)) := by
  have hget : s.get_attr attr = .ok (dictGet s.metadata attr) := by
    simp [Song.get_attr, h]
  cases hc : clean (dictGet s.metadata attr) with
  | none =>
    apply matchesConds_singleton_error
    rw [matchesCond_leaf]
    simp [evalLeaf, hget, hc, condSingle, CONDITION_IS, CONDITION_IS_NOT,
      CONDITION_CONTAINS, CONDITION_DOES_NOT_CONTAIN, truthy, Bind.bind,
      Except.bind]
  | some c =>
    apply matchesConds_singleton
    rw [matchesCond_leaf]
    simp only [evalLeaf, hget, Bind.bind, Except.bind, hc]
    by_cases hce : c = ""
    · subst hce
      simp [condSingle, CONDITION_IS, CONDITION_IS_NOT, CONDITION_CONTAINS,
        CONDITION_DOES_NOT_CONTAIN, truthy]
    · simp [condSingle, CONDITION_IS, CONDITION_IS_NOT, CONDITION_CONTAINS,
        CONDITION_DOES_NOT_CONTAIN, truthy, hce]

/-- C2, witness for `does_not_contain_semantics` at a concrete song whose
attribute value does contain the rule value. -/
theorem does_not_contain_semantics_witness :
    ¬ "artist" ∈ ALLOWED_ATTRS ∧
    matchesConds [.leaf CONDITION_DOES_NOT_CONTAIN "artist" (.scalar "hello")]
      (⟨"s.mp3", "2020-01-01T00:00:00", [("artist", "hello world")]⟩ : Song) =
      (match clean (dictGet ([("artist", "hello world")]) "artist") with
       | none => .error ()
       | some c => .ok (!(c = "") || !strIn "hello" c)) :=
  ⟨by decide, does_not_contain_semantics
    ⟨"s.mp3", "2020-01-01T00:00:00", [("artist", "hello world")]⟩
    "artist" "hello" (by decide)⟩

/-! ## C3: normalization of rule values -/

/-- C3, counterexample: a condition whose scalar value "Gorillaz" differs from
the song's attribute "gorillaz" only in case does *not* match under `is`
(first conjunct), although the two normalize identically (second conjunct) —
the scalar rule value is never cleaned. -/
theorem scalar_rule_not_normalized :
    matchesConds [.leaf CONDITION_IS "artist" (.scalar "Gorillaz")]
      ⟨"g.mp3", "2020-01-01T00:00:00", [("artist", "gorillaz")]⟩ = .ok false ∧
    clean (some "gorillaz") = clean (some "Gorillaz") :=
  ⟨rfl, rfl⟩

/-- C3, amended: the fetched attribute value is always normalized, and each
element of a sequence-valued rule is normalized, but a scalar rule value is
compared as written: under `is` the leaf matches iff the *cleaned* current
value equals the *raw* scalar (first part), while under `in` it matches iff
the cleaned current value equals some *cleaned* element of the sequence
(second part). -/
theorem leaf_normalization (s : Song) (attr v : String) (vs : List String)
    (h : ¬ attr ∈ ALLOWED_ATTRS) :
    (matchesConds [.leaf CONDITION_IS attr (.scalar v)] s = .ok true ↔
      clean (dictGet s.metadata attr) = some v) ∧
    (matchesConds [.leaf CONDITION_IN attr (.seq vs)] s = .ok true ↔
      clean (dictGet s.metadata attr) ∈ vs.map cleanS) := by
  constructor
  · rw [matchesConds_singleton s _ _ ((matchesCond_leaf s _ attr _).trans
      (evalLeaf_is s attr v h))]
    simp [pyEqScalar_eq_true_iff]
  · rw [matchesConds_singleton s _ _ ((matchesCond_leaf s _ attr _).trans
      (evalLeaf_in s attr vs h))]
    simp only [Except.ok.injEq, List.any_eq_true]
    constructor
    · rintro ⟨r, hr, hpe⟩
      rw [pyEqOpt_eq_true_iff] at hpe
      exact hpe ▸ hr
    · intro hm
      exact ⟨_, hm, (pyEqOpt_eq_true_iff _ _).mpr rfl⟩

/-- C3, witness for `leaf_normalization` at a concrete song and rules. -/
theorem leaf_normalization_witness :
    ¬ "artist" ∈ ALLOWED_ATTRS ∧
    ((matchesConds [.leaf CONDITION_IS "artist" (.scalar "gorillaz")]
        (⟨"g.mp3", "2020-01-01T00:00:00", [("artist", "gorillaz")]⟩ : Song) = .ok true ↔
      clean (dictGet ([("artist", "gorillaz")]) "artist") = some "gorillaz") ∧
    (matchesConds [.leaf CONDITION_IN "artist" (.seq ["GORILLAZ ", "x"])]
        (⟨"g.mp3", "2020-01-01T00:00:00", [("artist", "gorillaz")]⟩ : Song) = .ok true ↔
      clean (dictGet ([("artist", "gorillaz")]) "artist") ∈
        (["GORILLAZ ", "x"]).map cleanS)) :=
  ⟨by decide, leaf_normalization ⟨"g.mp3", "2020-01-01T00:00:00", [("artist", "gorillaz")]⟩
    "artist" "gorillaz" ["GORILLAZ ", "x"] (by decide)⟩

/-! ## C4: `Song.get_attr` on catalog-level attributes -/

/-- C4: the claim says `get_attr` returns the catalog-level `date_added` when
asked for it and never raises; in fact the `ALLOWED_ATTRS` branch executes
`self.getattr(attr)` — an attribute `Song` does not define — so asking for
"date_added" (or "filename") raises `AttributeError` for every song, while
every other attribute name is answered from the metadata mapping without
raising. -/
theorem get_attr_raises (s : Song) (a : String) (h : ¬ a ∈ ALLOWED_ATTRS) :
    s.get_attr "date_added" = .error () ∧
    s.get_attr "filename" = .error () ∧
    s.get_attr a = .ok (dictGet s.metadata a) := by
  refine ⟨by simp [Song.get_attr, ALLOWED_ATTRS], by simp [Song.get_attr, ALLOWED_ATTRS], ?_⟩
  simp [Song.get_attr, h]

/-- C4, witness for `get_attr_raises` at a concrete song and attribute. -/
theorem get_attr_raises_witness :
    ¬ "artist" ∈ ALLOWED_ATTRS ∧
    ((⟨"s.mp3", "2020-01-01T00:00:00", [("artist", "x")]⟩ : Song).get_attr "date_added" =
      .error () ∧
    (⟨"s.mp3", "2020-01-01T00:00:00", [("artist", "x")]⟩ : Song).get_attr "filename" =
      .error () ∧
    (⟨"s.mp3", "2020-01-01T00:00:00", [("artist", "x")]⟩ : Song).get_attr "artist" =
      .ok (dictGet ([("artist", "x")]) "artist")) :=
  ⟨by decide, get_attr_raises ⟨"s.mp3", "2020-01-01T00:00:00", [("artist", "x")]⟩
    "artist" (by decide)⟩

/-! ## C8: defaults for missing top-level configuration fields -/

/-- C8, counterexample: loading a configuration document with all four
optional fields absent into a fresh library succeeds, but the `extensions`
field does *not* default to empty — it keeps the built-in allow-list. -/
theorem load_defaults_counterexample :
    Musicman.Library.load_config freshLibrary ⟨none, none, none, none⟩ =
      .ok freshLibrary ∧
    ¬ freshLibrary.extensions = ([] : List String) :=
  ⟨rfl, by decide⟩

/-- C8, amended: when loading into a freshly constructed library, a missing
`songs`, `exports` or `playlists` field defaults to the empty mapping, while
a missing `extensions` field defaults to the built-in extension allow-list
`DEFAULT_EXTENSIONS` (in general, each missing field is replaced by the
library's current attribute value). -/
theorem load_defaults (cfg : Config) (lib' : Library)
    (h : Musicman.Library.load_config freshLibrary cfg = .ok lib') :
    (cfg.songs = none → lib'.songs = []) ∧
    (cfg.exports = none → lib'.exports = []) ∧
    (cfg.playlists = none → lib'.playlists = []) ∧
    (cfg.extensions = none → lib'.extensions = DEFAULT_EXTENSIONS) := by
  unfold Library.load_config at h
  cases hs : loadSongsField freshLibrary cfg with
  | error e => simp [hs] at h
  | ok songs =>
    cases hx : loadExportsField freshLibrary cfg with
    | error e => simp [hs, hx] at h
    | ok exports =>
      cases hp : loadPlaylistsField freshLibrary songs cfg with
      | error e => simp [hs, hx, hp] at h
      | ok playlists =>
        simp only [hs, hx, hp, Except.ok.injEq] at h
        subst h
        refine ⟨fun hn => ?_, fun hn => ?_, fun hn => ?_, fun hn => ?_⟩
        · rw [loadSongsField, hn] at hs
          simp only [freshLibrary, List.isEmpty_nil, if_true, Except.ok.injEq] at hs
          simp [hs.symm]
        · rw [loadExportsField, hn] at hx
          simp only [freshLibrary, List.isEmpty_nil, if_true, Except.ok.injEq] at hx
          simp [hx.symm]
        · rw [loadPlaylistsField, hn] at hp
          simp only [freshLibrary, List.isEmpty_nil, if_true, Except.ok.injEq] at hp
          simp [hp.symm]
        · simp [hn, freshLibrary]

/-- C8, witness for `load_defaults` at the all-fields-absent document. -/
theorem load_defaults_witness :
    Musicman.Library.load_config freshLibrary ⟨none, none, none, none⟩ =
      .ok freshLibrary ∧
    ((Config.songs ⟨none, none, none, none⟩ = none → freshLibrary.songs = []) ∧
    (Config.exports ⟨none, none, none, none⟩ = none → freshLibrary.exports = []) ∧
    (Config.playlists ⟨none, none, none, none⟩ = none → freshLibrary.playlists = []) ∧
    (Config.extensions ⟨none, none, none, none⟩ = none →
      freshLibrary.extensions = DEFAULT_EXTENSIONS)) :=
  ⟨rfl, load_defaults ⟨none, none, none, none⟩ freshLibrary rfl⟩

/-! ## C9: `remove` deletes exactly one song record -/

/-- C9: the removal operation (modelled from the spec — see
`Library.remove_song`) removes exactly the given filename's record from the
songs mapping: the key itself resolves to nothing afterwards, every other key
is unchanged, and the playlists, exports and extensions of the catalog are
untouched (the operation never inspects the media directory at all). -/
theorem remove_song_spec (lib : Library) (f : String)
    (h : (dictGet lib.songs f).isSome = true) :
    dictGet (lib.remove_song f).songs f = none ∧
    (∀ k, ¬ k = f → dictGet (lib.remove_song f).songs k = dictGet lib.songs k) ∧
    (lib.remove_song f).playlists = lib.playlists ∧
    (lib.remove_song f).exports = lib.exports ∧
    (lib.remove_song f).extensions = lib.extensions := by
  refine ⟨?_, fun k hk => ?_, rfl, rfl, rfl⟩
  · simpa [Library.remove_song] using dictGet_filterOut_self lib.songs f
  · simpa [Library.remove_song] using dictGet_filterOut_ne lib.songs f k hk

/-- C9, witness for `remove_song_spec` at a concrete two-song library. -/
theorem remove_song_spec_witness :
    (dictGet ([("a.mp3", (⟨"a.mp3", "2020-01-01T00:00:00", []⟩ : Song)),
               ("b.mp3", (⟨"b.mp3", "2020-01-02T00:00:00", []⟩ : Song))]) "a.mp3").isSome
      = true ∧
    (dictGet (Musicman.Library.remove_song
        ⟨DEFAULT_EXTENSIONS,
         [("a.mp3", ⟨"a.mp3", "2020-01-01T00:00:00", []⟩),
          ("b.mp3", ⟨"b.mp3", "2020-01-02T00:00:00", []⟩)], [], []⟩ "a.mp3").songs
        "a.mp3" = none ∧
    (∀ k, ¬ k = "a.mp3" →
      dictGet (Musicman.Library.remove_song
          ⟨DEFAULT_EXTENSIONS,
           [("a.mp3", ⟨"a.mp3", "2020-01-01T00:00:00", []⟩),
            ("b.mp3", ⟨"b.mp3", "2020-01-02T00:00:00", []⟩)], [], []⟩ "a.mp3").songs k =
        dictGet ([("a.mp3", (⟨"a.mp3", "2020-01-01T00:00:00", []⟩ : Song)),
                  ("b.mp3", (⟨"b.mp3", "2020-01-02T00:00:00", []⟩ : Song))]) k) ∧
    (Musicman.Library.remove_song
        ⟨DEFAULT_EXTENSIONS,
         [("a.mp3", ⟨"a.mp3", "2020-01-01T00:00:00", []⟩),
          ("b.mp3", ⟨"b.mp3", "2020-01-02T00:00:00", []⟩)], [], []⟩ "a.mp3").playlists =
      ([] : List (String × Playlist)) ∧
    (Musicman.Library.remove_song
        ⟨DEFAULT_EXTENSIONS,
         [("a.mp3", ⟨"a.mp3", "2020-01-01T00:00:00", []⟩),
          ("b.mp3", ⟨"b.mp3", "2020-01-02T00:00:00", []⟩)], [], []⟩ "a.mp3").exports =
      ([] : List (String × Export)) ∧
    (Musicman.Library.remove_song
        ⟨DEFAULT_EXTENSIONS,
         [("a.mp3", ⟨"a.mp3", "2020-01-01T00:00:00", []⟩),
          ("b.mp3", ⟨"b.mp3", "2020-01-02T00:00:00", []⟩)], [], []⟩ "a.mp3").extensions =
      DEFAULT_EXTENSIONS) :=
  ⟨by decide, remove_song_spec
    ⟨DEFAULT_EXTENSIONS,
     [("a.mp3", ⟨"a.mp3", "2020-01-01T00:00:00", []⟩),
      ("b.mp3", ⟨"b.mp3", "2020-01-02T00:00:00", []⟩)], [], []⟩ "a.mp3" (by decide)⟩

/-! ## C7: FlatDir export safety on a dirty music directory -/

/-- Auxiliary: whenever the directory holds a non-symlink entry, the clearing
loop exits fatally; the remaining contents are a suffix of the original
listing and contain every original non-symlink entry — but symlinks listed
before the first refused entry are already gone. -/
theorem ensureEmptyDir_fails (dir : List Entry) (h : ∃ e ∈ dir, e.isLink = false) :
    ∃ rem, ensureEmptyDirLinksOnly dir = .error rem ∧
      rem.filter (fun e => !e.isLink) = dir.filter (fun e => !e.isLink) ∧
      rem <:+ dir := by
  induction dir with
  | nil => simp at h
  | cons e rest ih =>
    by_cases hl : e.isLink
    · by_cases hd : e.isDir
      · exact ⟨e :: rest, by simp [ensureEmptyDirLinksOnly, hl, hd], rfl,
          List.suffix_refl _⟩
      · have h' : ∃ x ∈ rest, x.isLink = false := by
          obtain ⟨x, hx, hxl⟩ := h
          rcases List.mem_cons.mp hx with rfl | hx'
          · exact absurd hl (by simp [hxl])
          · exact ⟨x, hx', hxl⟩
        obtain ⟨rem, h1, h2, h3⟩ := ih h'
        refine ⟨rem, ?_, ?_, h3.trans (List.suffix_cons e rest)⟩
        · simp [ensureEmptyDirLinksOnly, hl, hd, h1]
        · rw [h2, List.filter_cons_of_neg (by simp [hl])]
    · exact ⟨e :: rest, by simp [ensureEmptyDirLinksOnly, hl], rfl,
        List.suffix_refl _⟩

/-- C7, counterexample: with the music export directory listing a symlink
followed by a regular file, `update` (via `update_song_symlinks`) does fail
fatally — but the directory it leaves behind no longer contains the symlink:
something *was* deleted before the failure was reported. -/
theorem update_deletes_before_failure :
    update_song_symlinks []
      [⟨"good.mp3", true, false⟩, ⟨"evil.txt", false, false⟩] =
      .error [⟨"evil.txt", false, false⟩] ∧
    ¬ ([⟨"evil.txt", false, false⟩] : List Entry) =
        [⟨"good.mp3", true, false⟩, ⟨"evil.txt", false, false⟩] :=
  ⟨rfl, by decide⟩

/-- C7, amended: whenever the export music directory contains a non-symlink
entry, `update` fails fatally before creating any symlink, never deletes a
non-symlink entry (the non-symlink entries of the remaining directory are
exactly those of the original), and the remaining contents are a suffix of
the original listing — i.e. only symlinks scanned before the first refused
entry have been deleted, not "nothing". -/
theorem update_fails_preserves_nonlinks (songs : List (String × Song))
    (dir : List Entry) (h : ∃ e ∈ dir, e.isLink = false) :
    ∃ rem, update_song_symlinks songs dir = .error rem ∧
      rem.filter (fun e => !e.isLink) = dir.filter (fun e => !e.isLink) ∧
      rem <:+ dir := by
  obtain ⟨rem, h1, h2, h3⟩ := ensureEmptyDir_fails dir h
  exact ⟨rem, by simp [update_song_symlinks, h1], h2, h3⟩

/-- C7, witness for `update_fails_preserves_nonlinks` on a concrete dirty
directory. -/
theorem update_fails_preserves_nonlinks_witness :
    (∃ e ∈ ([⟨"a.mp3", true, false⟩, ⟨"evil.txt", false, false⟩] : List Entry),
      e.isLink = false) ∧
    ∃ rem, update_song_symlinks []
        [⟨"a.mp3", true, false⟩, ⟨"evil.txt", false, false⟩] = .error rem ∧
      rem.filter (fun e => !e.isLink) =
        ([⟨"a.mp3", true, false⟩, ⟨"evil.txt", false, false⟩] : List Entry).filter
          (fun e => !e.isLink) ∧
      rem <:+ [⟨"a.mp3", true, false⟩, ⟨"evil.txt", false, false⟩] :=
  ⟨by decide, update_fails_preserves_nonlinks []
    [⟨"a.mp3", true, false⟩, ⟨"evil.txt", false, false⟩] (by decide)⟩

/-! ## C10: the empty condition list matches everything -/

theorem filterE_all_true {α : Type} (f : α → Except Unit Bool) (l : List α)
    (h : ∀ x ∈ l, f x = .ok true) : filterE f l = .ok l := by
  induction l with
  | nil => rfl
  | cons x t ih =>
    simp [filterE, h x (List.mem_cons_self x t), Bind.bind, Except.bind,
      ih (fun y hy => h y (List.mem_cons_of_mem x hy)), pure, Except.pure]

theorem sortSongs_ok_perm (spec : List String) (l : List Song)
    (h : ∀ f ∈ spec, ¬ stripDesc f ∈ ALLOWED_ATTRS) :
    ∃ out, sortSongs spec l = .ok out ∧ out.Perm l := by
  induction spec with
  | nil => exact ⟨l, rfl, List.Perm.refl l⟩
  | cons f fs ih =>
    obtain ⟨mid, h1, h2⟩ := ih (fun g hg => h g (List.mem_cons_of_mem f hg))
    have hnot : ¬ (stripDesc f ∈ ALLOWED_ATTRS ∧ mid ≠ []) := fun hc =>
      h f (List.mem_cons_self f fs) hc.1
    refine ⟨mid.mergeSort (fieldLe f), ?_, (List.mergeSort_perm mid _).trans h2⟩
    simp only [sortSongs, h1, Bind.bind, Except.bind, if_neg hnot]

/-- C10: an `AutoPlaylist` with an empty condition list matches every song
(the implicit top-level "and" over zero children is vacuously true), so its
`get_songs` succeeds on every library and returns a permutation of the whole
catalog (ordered by the default sort spec); and `set_defaults` on a new
library registers exactly such a playlist under the name "last-added". -/
theorem empty_conditions_match_all :
    (∀ s : Song, matchesConds [] s = .ok true) ∧
    (∀ lib : Library, ∃ out, getSongs DEFAULT_SORT [] lib = .ok out ∧
      out.Perm (lib.songs.map Prod.snd)) ∧
    dictGet (Musicman.Library.set_defaults freshLibrary).playlists "last-added" =
      some (.auto DEFAULT_SORT []) := by
  have hm : ∀ s : Song, matchesConds [] s = .ok true := fun s => rfl
  refine ⟨hm, fun lib => ?_, rfl⟩
  have hf : filterE (matchesConds []) (lib.songs.map Prod.snd) =
      .ok (lib.songs.map Prod.snd) :=
    filterE_all_true _ _ (fun x _ => hm x)
  obtain ⟨out, h1, h2⟩ := sortSongs_ok_perm DEFAULT_SORT (lib.songs.map Prod.snd)
    (by decide)
  refine ⟨out, ?_, h2⟩
  simp [getSongs, hf, Bind.bind, Except.bind, h1]

/-! ## C5: the multi-key stable sort -/

theorem fieldLe_trans (f : String) : ∀ a b c : Song,
    fieldLe f a b = true → fieldLe f b c = true → fieldLe f a c = true := by
  intro a b c hab hbc
  cases hd : isDescField f <;>
    simp only [fieldLe, hd, if_true, if_false, Bool.false_eq_true,
      decide_eq_true_eq] at hab hbc ⊢
  · exact le_trans hab hbc
  · exact le_trans hbc hab

theorem fieldLe_total (f : String) : ∀ a b : Song,
    fieldLe f a b || fieldLe f b a := by
  intro a b
  cases hd : isDescField f <;>
    simp only [fieldLe, hd, if_true, if_false, Bool.false_eq_true,
      Bool.or_eq_true, decide_eq_true_eq] <;>
    exact le_total _ _

theorem fieldLe_of_keys_eq (f : String) (a b : Song)
    (h : keyVal f a = keyVal f b) : fieldLe f a b = true := by
  cases hd : isDescField f <;>
    simp [fieldLe, hd, decide_eq_true_eq, h, le_refl]

theorem fieldLt_of_le_of_ne (f : String) (a b : Song)
    (hle : fieldLe f a b = true) (hne : ¬ keyVal f a = keyVal f b) :
    fieldLt f a b := by
  cases hd : isDescField f <;>
    simp only [fieldLe, fieldLt, hd, if_true, if_false, Bool.false_eq_true,
      decide_eq_true_eq] at hle ⊢
  · exact lt_of_le_of_ne hle hne
  · exact lt_of_le_of_ne hle (fun hh => hne hh.symm)

theorem pairwise_le_filter {α : Type} (p : α → Bool) (le : α → α → Bool)
    (hp : ∀ a b, p a = true → p b = true → le a b = true) (l : List α) :
    (l.filter p).Pairwise (fun a b => le a b = true) := by
  induction l with
  | nil => simp
  | cons x t ih =>
    by_cases hx : p x
    · rw [List.filter_cons_of_pos hx]
      exact List.Pairwise.cons (fun b hb => hp x b hx (List.of_mem_filter hb)) ih
    · rw [List.filter_cons_of_neg hx]
      exact ih

theorem filter_idem {α : Type} (p : α → Bool) (l : List α) :
    (l.filter p).filter p = l.filter p := by
  rw [List.filter_filter]
  exact List.filter_congr (fun a _ => by cases hpa : p a <;> simp [hpa])

/-- Stability of a stable sort, filter form: a predicate that only selects
elements of one equivalence class of the (total, transitive) comparison is
preserved by `mergeSort` — those elements come out in their input order. -/
theorem mergeSort_filter_class {α : Type} (le : α → α → Bool)
    (htrans : ∀ a b c : α, le a b = true → le b c = true → le a c = true)
    (htotal : ∀ a b : α, le a b || le b a)
    (p : α → Bool) (hp : ∀ a b, p a = true → p b = true → le a b = true)
    (l : List α) : (l.mergeSort le).filter p = l.filter p := by
  have h1 : List.Sublist (l.filter p) (l.mergeSort le) :=
    List.sublist_mergeSort htrans htotal (pairwise_le_filter p le hp l)
      (List.filter_sublist l)
  have h2 : List.Sublist (l.filter p) ((l.mergeSort le).filter p) := by
    have := h1.filter p
    rwa [filter_idem] at this
  have h3 : ((l.mergeSort le).filter p).length = (l.filter p).length :=
    ((List.mergeSort_perm l le).filter p).length_eq
  exact (h2.eq_of_length h3.symm).symm

/-- Combining one sort pass with the structure established by the previous
passes: if a list is pairwise `R`-related and, within every class of the key
`k`, pairwise `S`-related, then it is pairwise related by the conjunction. -/
theorem pairwise_combine {α : Type} (k : α → String) (R S : α → α → Prop) :
    ∀ m : List α, m.Pairwise R →
      (∀ c, (m.filter (fun z => decide (k z = c))).Pairwise S) →
      m.Pairwise (fun a b => R a b ∧ (k a = k b → S a b))
  | [], _, _ => List.Pairwise.nil
  | x :: t, hR, hS => by
    rcases List.pairwise_cons.mp hR with ⟨hx, hRt⟩
    have hSx : ∀ y ∈ t.filter (fun z => decide (k z = k x)), S x y := by
      have hh := hS (k x)
      rw [List.filter_cons_of_pos (by simp)] at hh
      exact (List.pairwise_cons.mp hh).1
    have hSt : ∀ c, (t.filter (fun z => decide (k z = c))).Pairwise S := by
      intro c
      by_cases hc : k x = c
      · have hh := hS c
        rw [List.filter_cons_of_pos (by simp [hc])] at hh
        exact (List.pairwise_cons.mp hh).2
      · have hh := hS c
        rwa [List.filter_cons_of_neg (by simp [hc])] at hh
    refine List.pairwise_cons.mpr ⟨?_, pairwise_combine k R S t hRt hSt⟩
    intro y hy
    refine ⟨hx y hy, fun heq => ?_⟩
    exact hSx y (List.mem_filter.mpr ⟨hy, by simp [heq.symm]⟩)

theorem pairwise_trivial {α : Type} (l : List α) :
    l.Pairwise (fun _ _ => True) := by
  induction l with
  | nil => exact List.Pairwise.nil
  | cons x t ih => exact List.Pairwise.cons (fun _ _ => trivial) ih

/-- The full specification of the sort loop: under sort keys that do not hit
the `get_attr` bug, the loop succeeds and returns a permutation of its input
that is (i) pairwise ordered by the lexicographic relation of the key list
(most significant key first, each key oriented by its `!` prefix) and
(ii) stable — the songs of any fixed key tuple keep their input order. -/
theorem sortSongs_spec (spec : List String) (l : List Song)
    (h : ∀ f ∈ spec, ¬ stripDesc f ∈ ALLOWED_ATTRS) :
    ∃ out, sortSongs spec l = .ok out ∧ out.Perm l ∧
      out.Pairwise (lexLe spec) ∧
      (∀ t, out.filter (fun s => decide (keyTuple spec s = t)) =
            l.filter (fun s => decide (keyTuple spec s = t))) := by
  induction spec with
  | nil => exact ⟨l, rfl, List.Perm.refl l, pairwise_trivial l, fun t => rfl⟩
  | cons f fs ih =>
    obtain ⟨mid, h1, hperm, hpw, hstab⟩ := ih (fun g hg => h g (List.mem_cons_of_mem f hg))
    have hnot : ¬ (stripDesc f ∈ ALLOWED_ATTRS ∧ mid ≠ []) := fun hc =>
      h f (List.mem_cons_self f fs) hc.1
    have hrun : sortSongs (f :: fs) l = .ok (mid.mergeSort (fieldLe f)) := by
      simp only [sortSongs, h1, Bind.bind, Except.bind, if_neg hnot]
    have hclass : ∀ p : Song → Bool,
        (∀ a b, p a = true → p b = true → keyVal f a = keyVal f b) →
        (mid.mergeSort (fieldLe f)).filter p = mid.filter p := by
      intro p hpc
      exact mergeSort_filter_class (fieldLe f) (fieldLe_trans f) (fieldLe_total f) p
        (fun a b ha hb => fieldLe_of_keys_eq f a b (hpc a b ha hb)) mid
    have hsorted : (mid.mergeSort (fieldLe f)).Pairwise
        (fun a b => fieldLe f a b = true) :=
      List.sorted_mergeSort (fieldLe_trans f) (fieldLe_total f) mid
    have hSclasses : ∀ c, ((mid.mergeSort (fieldLe f)).filter
        (fun z => decide (keyVal f z = c))).Pairwise (lexLe fs) := by
      intro c
      rw [hclass _ (fun a b ha hb => by
        simp only [decide_eq_true_eq] at ha hb
        rw [ha, hb])]
      exact List.Pairwise.sublist (List.filter_sublist mid) hpw
    have hpw2 : (mid.mergeSort (fieldLe f)).Pairwise (lexLe (f :: fs)) := by
      refine (pairwise_combine (keyVal f) _ (lexLe fs) _ hsorted hSclasses).imp ?_
      rintro a b ⟨hab, himp⟩
      by_cases heq : keyVal f a = keyVal f b
      · exact Or.inr ⟨heq, himp heq⟩
      · exact Or.inl (fieldLt_of_le_of_ne f a b hab heq)
    have hsplit : ∀ (m : List Song) (c : String) (ts : List String),
        m.filter (fun s => decide (keyTuple (f :: fs) s = c :: ts)) =
        (m.filter (fun s => decide (keyTuple fs s = ts))).filter
          (fun s => decide (keyVal f s = c)) := by
      intro m c ts
      rw [List.filter_filter]
      exact List.filter_congr (fun s _ => by
        simp [keyTuple, decide_eq_true_eq])
    have hstab2 : ∀ t, (mid.mergeSort (fieldLe f)).filter
          (fun s => decide (keyTuple (f :: fs) s = t)) =
        l.filter (fun s => decide (keyTuple (f :: fs) s = t)) := by
      intro t
      cases t with
      | nil =>
        rw [List.filter_eq_nil_iff.mpr (fun s _ => by simp [keyTuple]),
          List.filter_eq_nil_iff.mpr (fun s _ => by simp [keyTuple])]
      | cons c ts =>
        have hconj : ∀ a b : Song,
            decide (keyTuple (f :: fs) a = c :: ts) = true →
            decide (keyTuple (f :: fs) b = c :: ts) = true →
            keyVal f a = keyVal f b := by
          intro a b ha hb
          simp only [keyTuple, List.map_cons, List.cons.injEq, decide_eq_true_eq]
            at ha hb
          rw [ha.1, hb.1]
        rw [hclass _ hconj, hsplit mid c ts, hsplit l c ts, hstab ts]
    exact ⟨mid.mergeSort (fieldLe f), hrun,
      (List.mergeSort_perm mid _).trans hperm, hpw2, hstab2⟩

/-- C5, counterexample: the claim quantifies over every sort specification,
but sorting a non-empty matched-song list by the key "date_added" does not
sort at all — the sort key lambda `song.get_attr(field) or ""` calls
`Song.get_attr` on a catalog-level attribute, which raises `AttributeError`
(the `self.getattr` bug), so the sort loop of `get_songs` fails instead of
producing an order. -/
theorem sortSongs_date_added_raises :
    sortSongs ["date_added"] [⟨"a.mp3", "2020-01-01T00:00:00", []⟩] =
      .error () :=
  rfl

/-- C5, amended: for every list of matched songs and every sort spec whose
keys (after stripping the `!` descending prefix) avoid the catalog-level
attributes `filename`/`date_added` (on which the sort key function raises as
soon as the list is non-empty, see `Song.get_attr` and the counterexample),
the sort loop of `get_songs` — one stable sort per key, least significant
first, as `sortSongs` embeds it — succeeds and produces a permutation of the
input that honors key priority left to right (`lexLe`, with each
`!`-prefixed key independently reversed) and keeps songs with equal values
on every listed key in their pre-sort relative order; and a missing
attribute value sorts as the empty string. -/
theorem get_songs_multikey_sort (spec : List String) (songs : List Song)
    (h : ∀ f ∈ spec, ¬ stripDesc f ∈ ALLOWED_ATTRS) :
    (∃ out, sortSongs spec songs = .ok out ∧ out.Perm songs ∧
      out.Pairwise (lexLe spec) ∧
      (∀ t, out.filter (fun s => decide (keyTuple spec s = t)) =
            songs.filter (fun s => decide (keyTuple spec s = t)))) ∧
    (∀ (s : Song) (f : String), dictGet s.metadata (stripDesc f) = none →
      keyVal f s = "") :=
  ⟨sortSongs_spec spec songs h, fun s f hf => by simp [keyVal, songKey, hf]⟩

/-- C5, witness for `get_songs_multikey_sort` on a concrete spec and songs. -/
theorem get_songs_multikey_sort_witness :
    (∀ f ∈ (["artist", "!title"] : List String), ¬ stripDesc f ∈ ALLOWED_ATTRS) ∧
    ((∃ out, sortSongs ["artist", "!title"]
        [⟨"a.mp3", "2020", [("artist", "B"), ("title", "x")]⟩,
         ⟨"b.mp3", "2020", [("artist", "A"), ("title", "y")]⟩] = .ok out ∧
      out.Perm [⟨"a.mp3", "2020", [("artist", "B"), ("title", "x")]⟩,
                ⟨"b.mp3", "2020", [("artist", "A"), ("title", "y")]⟩] ∧
      out.Pairwise (lexLe ["artist", "!title"]) ∧
      (∀ t, out.filter (fun s => decide (keyTuple ["artist", "!title"] s = t)) =
        ([⟨"a.mp3", "2020", [("artist", "B"), ("title", "x")]⟩,
          ⟨"b.mp3", "2020", [("artist", "A"), ("title", "y")]⟩] : List Song).filter
          (fun s => decide (keyTuple ["artist", "!title"] s = t)))) ∧
    (∀ (s : Song) (f : String), dictGet s.metadata (stripDesc f) = none →
      keyVal f s = "")) :=
  ⟨by decide, get_songs_multikey_sort ["artist", "!title"]
    [⟨"a.mp3", "2020", [("artist", "B"), ("title", "x")]⟩,
     ⟨"b.mp3", "2020", [("artist", "A"), ("title", "y")]⟩] (by decide)⟩

/-! ## C6: save/load round trip -/

theorem phrase_roundtrip_single (t : Nat) (h : t ∈ SINGLE_KEYS) :
    ∃ p, conditionPhrase t = some p ∧ dictGet CONDITION_MAPPING p = some t := by
  fin_cases h <;> exact ⟨_, rfl, rfl⟩

theorem phrase_roundtrip_multiple (t : Nat) (h : t ∈ MULTIPLE_KEYS) :
    ∃ p, conditionPhrase t = some p ∧ dictGet CONDITION_MAPPING p = some t := by
  fin_cases h <;> exact ⟨_, rfl, rfl⟩

mutual

/-- Serializing a valid condition tree succeeds and deserializing the result
restores the tree (the serialized operator phrase maps back to the same
internal constant, and the value's arity re-selects the same operator
table). -/
theorem cond_roundtrip : ∀ c : Cond, Cond.valid c = true →
    ∃ sc, serializeCond c = .ok sc ∧ unserializeCond sc = .ok c
  | .comb op cs, h => by
    simp only [Cond.valid, Bool.and_eq_true] at h
    obtain ⟨h1, h2⟩ := h
    obtain ⟨scs, hs1, hs2⟩ := conds_roundtrip cs h2
    have hop : op = "and" ∨ op = "or" := by simpa using h1
    refine ⟨.comb op scs, ?_, ?_⟩
    · simp [serializeCond, hop, hs1, Bind.bind, Except.bind, pure, Except.pure]
    · simp [unserializeCond, hop, hs2, Bind.bind, Except.bind, pure, Except.pure]
  | .leaf t a v, h => by
    cases v with
    | scalar s =>
      simp only [Cond.valid, decide_eq_true_eq] at h
      obtain ⟨p, hp1, hp2⟩ := phrase_roundtrip_single t h
      exact ⟨.leaf a p (.scalar s), by simp [serializeCond, hp1],
        by simp [unserializeCond, hp2, h]⟩
    | seq vs =>
      simp only [Cond.valid, decide_eq_true_eq] at h
      obtain ⟨p, hp1, hp2⟩ := phrase_roundtrip_multiple t h
      have hns : ¬ t ∈ SINGLE_KEYS := by
        fin_cases h <;> decide
      exact ⟨.leaf a p (.seq vs), by simp [serializeCond, hp1],
        by simp [unserializeCond, hp2, h, hns]⟩

/-- The lemma `cond_roundtrip` lifted to condition lists. -/
theorem conds_roundtrip : ∀ cs : List Cond, Cond.validList cs = true →
    ∃ scs, serializeConds cs = .ok scs ∧ unserializeConds scs = .ok cs
  | [], _ => ⟨[], rfl, rfl⟩
  | c :: t, h => by
    simp only [Cond.validList, Bool.and_eq_true] at h
    obtain ⟨h1, h2⟩ := h
    obtain ⟨sc, hc1, hc2⟩ := cond_roundtrip c h1
    obtain ⟨st, ht1, ht2⟩ := conds_roundtrip t h2
    exact ⟨sc :: st,
      by simp [serializeConds, hc1, ht1, Bind.bind, Except.bind, pure, Except.pure],
      by simp [unserializeConds, hc2, ht2, Bind.bind, Except.bind, pure, Except.pure]⟩

end

theorem songs_roundtrip (songs : List (String × Song)) :
    (songs.map (fun p => (p.1, serializeSong p.2))).map
      (fun p => (p.1, unserializeSong p.2)) = songs := by
  induction songs with
  | nil => rfl
  | cons p t ih =>
    simp only [List.map_cons]
    rw [ih]
    rfl

theorem exports_roundtrip (exports : List (String × Export)) :
    mapAssocE unserializeExport
      (exports.map (fun p => (p.1, serializeExport p.2))) = .ok exports := by
  induction exports with
  | nil => rfl
  | cons p t ih =>
    obtain ⟨k, v⟩ := p
    simp only [List.map_cons, mapAssocE, Bind.bind, Except.bind,
      show unserializeExport (serializeExport v) = Except.ok v from rfl, ih,
      pure, Except.pure]

theorem simple_songs_roundtrip (m : List (String × Song)) (ss : List Song)
    (h : ∀ s ∈ ss, dictGet m s.filename = some s) :
    mapE (getSongE m) (ss.map (fun s => s.filename)) = .ok ss := by
  induction ss with
  | nil => rfl
  | cons s t ih =>
    have hs : getSongE m s.filename = .ok s := by
      simp [getSongE, h s (List.mem_cons_self s t)]
    simp only [List.map_cons, mapE, Bind.bind, Except.bind, hs,
      ih (fun y hy => h y (List.mem_cons_of_mem s hy)), pure, Except.pure]

theorem playlist_roundtrip (m : List (String × Song)) (p : Playlist)
    (h : p.validIn m = true) :
    ∃ pc, serializePlaylist p = .ok pc ∧ unserializePlaylist m pc = .ok p := by
  cases p with
  | simple ss =>
    simp only [Playlist.validIn, List.all_eq_true, decide_eq_true_eq] at h
    refine ⟨_, rfl, ?_⟩
    simp [unserializePlaylist, serializePlaylist, simple_songs_roundtrip m ss h,
      Bind.bind, Except.bind, pure, Except.pure]
  | auto srt conds =>
    simp only [Playlist.validIn] at h
    obtain ⟨scs, h1, h2⟩ := conds_roundtrip conds h
    refine ⟨⟨"auto", none, some scs, some srt⟩, ?_, ?_⟩
    · simp [serializePlaylist, h1, Bind.bind, Except.bind, pure, Except.pure]
    · simp [unserializePlaylist, h2, Bind.bind, Except.bind, pure, Except.pure]

theorem playlists_roundtrip (m : List (String × Song))
    (ps : List (String × Playlist)) (h : ps.all (fun p => p.2.validIn m) = true) :
    ∃ pcs, mapAssocE serializePlaylist ps = .ok pcs ∧
      mapAssocE (unserializePlaylist m) pcs = .ok ps := by
  induction ps with
  | nil => exact ⟨[], rfl, rfl⟩
  | cons p t ih =>
    simp only [List.all_cons, Bool.and_eq_true] at h
    obtain ⟨pc, h1, h2⟩ := playlist_roundtrip m p.2 h.1
    obtain ⟨pcs, h3, h4⟩ := ih h.2
    exact ⟨(p.1, pc) :: pcs,
      by simp [mapAssocE, h1, h3, Bind.bind, Except.bind, pure, Except.pure],
      by simp [mapAssocE, h2, h4, Bind.bind, Except.bind, pure, Except.pure]⟩

/-- C6: for every catalog built purely from valid records, `get_config`
succeeds and `load_config` on the produced document — into *any* base
library, in particular a fresh one — rebuilds the identical catalog: same
song keys and records, same export and playlist names with equal per-variant
fields, with condition trees round-tripping through the implicit-"and"
strip/re-add. -/
theorem save_load_roundtrip (lib : Library) (h : lib.validRecords = true) :
    ∃ cfg, lib.get_config = .ok cfg ∧
      ∀ base : Library, base.load_config cfg = .ok lib := by
  obtain ⟨pcs, hp1, hp2⟩ := playlists_roundtrip lib.songs lib.playlists h
  refine ⟨⟨some lib.extensions,
    some (lib.exports.map (fun p => (p.1, serializeExport p.2))), some pcs,
    some (lib.songs.map (fun p => (p.1, serializeSong p.2)))⟩, ?_, ?_⟩
  · simp [Library.get_config, hp1, Bind.bind, Except.bind, pure, Except.pure]
  · intro base
    simp only [Library.load_config, loadSongsField, loadExportsField,
      loadPlaylistsField, songs_roundtrip lib.songs, exports_roundtrip lib.exports,
      hp2, Option.getD]

/-- C6, witness for `save_load_roundtrip` on a concrete catalog with one
song, one export, a simple playlist and an auto playlist. -/
theorem save_load_roundtrip_witness :
    Musicman.Library.validRecords
      ⟨["mp3"], [("a.mp3", ⟨"a.mp3", "2020-01-01T00:00:00", [("artist", "x")]⟩)],
       [("main", ⟨"/tmp/m", "/tmp/p"⟩)],
       [("pl", .simple [⟨"a.mp3", "2020-01-01T00:00:00", [("artist", "x")]⟩]),
        ("au", .auto ["artist"]
          [.leaf 1 "artist" (.scalar "x"),
           .comb "or" [.leaf 5 "genre" (.seq ["rock"])]])]⟩ = true ∧
    ∃ cfg, Musicman.Library.get_config
      ⟨["mp3"], [("a.mp3", ⟨"a.mp3", "2020-01-01T00:00:00", [("artist", "x")]⟩)],
       [("main", ⟨"/tmp/m", "/tmp/p"⟩)],
       [("pl", .simple [⟨"a.mp3", "2020-01-01T00:00:00", [("artist", "x")]⟩]),
        ("au", .auto ["artist"]
          [.leaf 1 "artist" (.scalar "x"),
           .comb "or" [.leaf 5 "genre" (.seq ["rock"])]])]⟩ = .ok cfg ∧
      ∀ base : Library, base.load_config cfg = .ok
        ⟨["mp3"], [("a.mp3", ⟨"a.mp3", "2020-01-01T00:00:00", [("artist", "x")]⟩)],
         [("main", ⟨"/tmp/m", "/tmp/p"⟩)],
         [("pl", .simple [⟨"a.mp3", "2020-01-01T00:00:00", [("artist", "x")]⟩]),
          ("au", .auto ["artist"]
            [.leaf 1 "artist" (.scalar "x"),
             .comb "or" [.leaf 5 "genre" (.seq ["rock"])]])]⟩ :=
  ⟨rfl, save_load_roundtrip
    ⟨["mp3"], [("a.mp3", ⟨"a.mp3", "2020-01-01T00:00:00", [("artist", "x")]⟩)],
     [("main", ⟨"/tmp/m", "/tmp/p"⟩)],
     [("pl", .simple [⟨"a.mp3", "2020-01-01T00:00:00", [("artist", "x")]⟩]),
      ("au", .auto ["artist"]
        [.leaf 1 "artist" (.scalar "x"),
         .comb "or" [.leaf 5 "genre" (.seq ["rock"])]])]⟩ rfl⟩

end Musicman
